import Mathlib

/-!
Verification of the fund-composition utility library (`funcoes.py`).

The development shallowly embeds the data-reshaping pipeline of the
repository: tabular data becomes lists of typed records, pandas Series
become lists of rationals, and the fallible file readers become
`Except`-valued functions.  Market values and quota values are modelled
as exact rationals (`ℚ`); the floating-point `NaN` that pandas produces
when dividing by an empty slice sum is modelled by `Option ℚ` with
`none` standing for a non-finite result.  Python's `round(x, n)`
(round-half-to-even) is modelled exactly on rationals; none of the
concrete inputs used below sits on a rounding tie, where binary floats
and exact rationals could disagree.
-/

/- Batteries marks the arithmetic on `Rat` irreducible, which blocks
`decide` on concrete rational computations; restore the default
reducibility for this file so that witnesses evaluate. -/
attribute [local semireducible] Rat.mul Rat.add Rat.sub Rat.inv

/-- Round a rational to the nearest integer, ties going to the even
integer.  This is the rounding mode of Python's builtin `round`. -/
def roundHalfEven (x : ℚ) : ℤ :=
  let f := ⌊x⌋
  if x - f < 1/2 then f
  else if 1/2 < x - f then f + 1
  else if 2 ∣ f then f else f + 1

/-- Python's `round(x, 2)` on exact rationals. -/
def pyround2 (x : ℚ) : ℚ := (roundHalfEven (x * 100) : ℚ) / 100

/-- Python's `round(x, 4)` on exact rationals. -/
def pyround4 (x : ℚ) : ℚ := (roundHalfEven (x * 10000) : ℚ) / 10000

/-! ## Quota series and `rentabilidade_fundo`

A row of the quota table: the date index (year, month, day), the fund
identifier and the quota value.  Rows appear in the list in the order of
the DataFrame's rows. -/

structure QuotaRow where
  year : Nat
  month : Nat
  day : Nat
  cnpj_fundo : String
  vl_quota : ℚ
deriving DecidableEq

/-- The `CNPJ_FUNDO == cnpj` row selection at the top of
`rentabilidade_fundo`. -/
def filtCnpj (df : List QuotaRow) (cnpj : String) : List QuotaRow :=
  df.filter (fun r => r.cnpj_fundo == cnpj)

/-- `groupby(index.to_period('M')).tail(1)`: keep, in original order,
the last row of each calendar-month group. -/
def lastOfMonths : List QuotaRow → List QuotaRow
  | [] => []
  | r :: rest =>
    if rest.any (fun s => s.year == r.year && s.month == r.month) then
      lastOfMonths rest
    else
      r :: lastOfMonths rest

/-- The monthly-return table of `rentabilidade_fundo`:
`round(last_days.pct_change()*100, 2)` with the leading `NaN` dropped.
Each entry carries its (year, month) index.  `pct_change` pairs each
entry with its predecessor, which `zipWith` over the tail expresses. -/
def mensalRets (df : List QuotaRow) (cnpj : String) :
    List ((Nat × Nat) × ℚ) :=
  let ld := lastOfMonths (filtCnpj df cnpj)
  List.zipWith
    (fun cur prev =>
      ((cur.year, cur.month), pyround2 ((cur.vl_quota / prev.vl_quota - 1) * 100)))
    (ld.drop 1) ld

/-- `index.year.unique()`: first occurrences kept, in order of
appearance. -/
def uniqueKeepFirst (l : List Nat) : List Nat :=
  l.foldl (fun acc y => if y ∈ acc then acc else acc ++ [y]) []

/-- The annual-return table of `rentabilidade_fundo`: for each year of
the monthly table, `round((prod of taxa_unit - 1) * 100, 2)` where
`taxa_unit = 1 + ret/100` is built from the already-rounded monthly
returns. -/
def anualRets (mensal : List ((Nat × Nat) × ℚ)) : List (Nat × ℚ) :=
  (uniqueKeepFirst (mensal.map (fun p => p.1.1))).map
    (fun y =>
      (y, pyround2
        ((((mensal.filter (fun p => p.1.1 == y)).map (fun p => 1 + p.2 / 100)).prod - 1)
          * 100)))

/-- `rentabilidade_fundo df cnpj` returns the monthly-return table and
the annual-return table.  The `nome_fundo` argument of the source only
renames output columns and is omitted. -/
def rentabilidade_fundo (df : List QuotaRow) (cnpj : String) :
    List ((Nat × Nat) × ℚ) × List (Nat × ℚ) :=
  let mensal := mensalRets df cnpj
  (mensal, anualRets mensal)

/-- The calendar month following a (year, month) pair. -/
def nextMonth (ym : Nat × Nat) : Nat × Nat :=
  if ym.2 = 12 then (ym.1 + 1, 1) else (ym.1, ym.2 + 1)

/-! ## The `open_cda_*` readers

A raw file is a table with a list of column names and rows of cells
addressed by column name.  A cell is either text or a number (the raw
parquet files carry the market-value columns as numbers and everything
else as text).  Reading the parquet file from disk is outside the
embedding: the readers take the already-loaded table. -/

/-- A raw table cell: text or numeric. -/
inductive Cell where
  | txt (v : String)
  | num (v : ℚ)
deriving DecidableEq

/-- The text content of a cell.  Mirrors `astype(str)` on a text
column; no claim depends on how a numeric cell renders as text. -/
def Cell.asStr : Cell → String
  | .txt v => v
  | .num _ => ""

/-- The numeric content of a cell.  Mirrors `astype(float)` on a
numeric column; a malformed text cell would raise in pandas, which no
claim exercises, so it is given a default here. -/
def Cell.asNum : Cell → ℚ
  | .num v => v
  | .txt _ => 0

/-- A raw file: column names plus rows of (column name, cell) pairs. -/
structure RawTable where
  cols : List String
  rows : List (List (String × Cell))
deriving DecidableEq

/-- Select the cell of column `c` in a row. -/
def getCell (row : List (String × Cell)) (c : String) : Cell :=
  ((row.find? (fun p => p.1 == c)).map (fun p => p.2)).getD (Cell.txt "")

/-- The `if col_a in df.columns / elif col_b / else raise ValueError`
block that every reader repeats: resolve which of the two known raw
names is present, failing with an explicit error when neither is.
The source embeds the quoted column names in the message; the quotes
are dropped here. -/
def resolveCol (cols : List String) (a b : String) : Except String String :=
  if a ∈ cols then Except.ok a
  else if b ∈ cols then Except.ok b
  else Except.error
    ("Nenhuma das colunas " ++ a ++ " ou " ++ b ++ " foi encontrada no arquivo.")

/-- Resolve the fund-type and fund-id columns, then run the body of a
reader.  Every `open_cda_*` reader and `pl_fundo` begins with these
two identical resolution blocks, in this order. -/
def withCols (cols : List String) (k : String → String → Except String β) :
    Except String β :=
  match resolveCol cols "TP_FUNDO" "TP_FUNDO_CLASSE" with
  | Except.error e => Except.error e
  | Except.ok tpCol =>
    match resolveCol cols "CNPJ_FUNDO" "CNPJ_FUNDO_CLASSE" with
    | Except.error e => Except.error e
    | Except.ok cnpjCol => k tpCol cnpjCol

/-- Whether an `Except` result is the error case. -/
def isErr : Except String β → Bool
  | Except.error _ => true
  | Except.ok _ => false

/-- A normalized row produced by the readers: the canonical column set
`TP_FUNDO, CNPJ_FUNDO, DENOM_SOCIAL, DT_COMPTC, TP_APLIC, TP_ATIVO,
VL_MERC_POS_FINAL, CD_ATIVO`.  The report date is kept as its raw text;
`pd.to_datetime` is not modelled since no claim inspects dates produced
by the readers. -/
structure CdaRow where
  tp_fundo : String
  cnpj_fundo : String
  denom_social : String
  dt_comptc : String
  tp_aplic : String
  tp_ativo : String
  vl_merc_pos_final : ℚ
  cd_ativo : String
deriving DecidableEq

/-- `open_cda_1`: keep `TP_FUNDO == 'FI'` rows, merge `TP_TITPUB` and
`DT_VENC` (space-separated) into the asset code. -/
def open_cda_1 (t : RawTable) : Except String (List CdaRow) :=
  withCols t.cols (fun tpCol cnpjCol =>
    let filtered := t.rows.filter (fun r => (getCell r tpCol).asStr == "FI")
    Except.ok (filtered.map (fun r =>
      { tp_fundo := (getCell r tpCol).asStr
        cnpj_fundo := (getCell r cnpjCol).asStr
        denom_social := (getCell r "DENOM_SOCIAL").asStr
        dt_comptc := (getCell r "DT_COMPTC").asStr
        tp_aplic := (getCell r "TP_APLIC").asStr
        tp_ativo := (getCell r "TP_ATIVO").asStr
        vl_merc_pos_final := (getCell r "VL_MERC_POS_FINAL").asNum
        cd_ativo := (getCell r "TP_TITPUB").asStr ++ " " ++ (getCell r "DT_VENC").asStr })))

/-- `open_cda_2`: additionally resolves the quota-name column among its
two known raw names, which becomes the asset code. -/
def open_cda_2 (t : RawTable) : Except String (List CdaRow) :=
  withCols t.cols (fun tpCol cnpjCol =>
    match resolveCol t.cols "NM_FUNDO_COTA" "NM_FUNDO_CLASSE_SUBCLASSE_COTA" with
    | Except.error e => Except.error e
    | Except.ok nmCol =>
      let filtered := t.rows.filter (fun r => (getCell r tpCol).asStr == "FI")
      Except.ok (filtered.map (fun r =>
        { tp_fundo := (getCell r tpCol).asStr
          cnpj_fundo := (getCell r cnpjCol).asStr
          denom_social := (getCell r "DENOM_SOCIAL").asStr
          dt_comptc := (getCell r "DT_COMPTC").asStr
          tp_aplic := (getCell r "TP_APLIC").asStr
          tp_ativo := (getCell r "TP_ATIVO").asStr
          vl_merc_pos_final := (getCell r "VL_MERC_POS_FINAL").asNum
          cd_ativo := (getCell r nmCol).asStr })))

/-- `open_cda_4`: keeps rows whose fund type is `'FI'` or
`'CLASSES - FIF'`; the asset code comes directly from `CD_ATIVO`. -/
def open_cda_4 (t : RawTable) : Except String (List CdaRow) :=
  withCols t.cols (fun tpCol cnpjCol =>
    let filtered := t.rows.filter (fun r =>
      (getCell r tpCol).asStr == "FI" || (getCell r tpCol).asStr == "CLASSES - FIF")
    Except.ok (filtered.map (fun r =>
      { tp_fundo := (getCell r tpCol).asStr
        cnpj_fundo := (getCell r cnpjCol).asStr
        denom_social := (getCell r "DENOM_SOCIAL").asStr
        dt_comptc := (getCell r "DT_COMPTC").asStr
        tp_aplic := (getCell r "TP_APLIC").asStr
        tp_ativo := (getCell r "TP_ATIVO").asStr
        vl_merc_pos_final := (getCell r "VL_MERC_POS_FINAL").asNum
        cd_ativo := (getCell r "CD_ATIVO").asStr })))

/-- A normalized row of `open_cda_4_v2`, which keeps the two option
validity-window columns in addition to the canonical set. -/
structure CdaRowV2 where
  tp_fundo : String
  cnpj_fundo : String
  denom_social : String
  dt_comptc : String
  tp_aplic : String
  tp_ativo : String
  vl_merc_pos_final : ℚ
  cd_ativo : String
  dt_ini_vigencia : String
  dt_fim_vigencia : String
deriving DecidableEq

/-- `open_cda_4_v2`: as `open_cda_4` plus `DT_INI_VIGENCIA` and
`DT_FIM_VIGENCIA`. -/
def open_cda_4_v2 (t : RawTable) : Except String (List CdaRowV2) :=
  withCols t.cols (fun tpCol cnpjCol =>
    let filtered := t.rows.filter (fun r =>
      (getCell r tpCol).asStr == "FI" || (getCell r tpCol).asStr == "CLASSES - FIF")
    Except.ok (filtered.map (fun r =>
      { tp_fundo := (getCell r tpCol).asStr
        cnpj_fundo := (getCell r cnpjCol).asStr
        denom_social := (getCell r "DENOM_SOCIAL").asStr
        dt_comptc := (getCell r "DT_COMPTC").asStr
        tp_aplic := (getCell r "TP_APLIC").asStr
        tp_ativo := (getCell r "TP_ATIVO").asStr
        vl_merc_pos_final := (getCell r "VL_MERC_POS_FINAL").asNum
        cd_ativo := (getCell r "CD_ATIVO").asStr
        dt_ini_vigencia := (getCell r "DT_INI_VIGENCIA").asStr
        dt_fim_vigencia := (getCell r "DT_FIM_VIGENCIA").asStr })))

/-- `open_cda_7`: the asset code comes from the `EMISSOR` column. -/
def open_cda_7 (t : RawTable) : Except String (List CdaRow) :=
  withCols t.cols (fun tpCol cnpjCol =>
    let filtered := t.rows.filter (fun r => (getCell r tpCol).asStr == "FI")
    Except.ok (filtered.map (fun r =>
      { tp_fundo := (getCell r tpCol).asStr
        cnpj_fundo := (getCell r cnpjCol).asStr
        denom_social := (getCell r "DENOM_SOCIAL").asStr
        dt_comptc := (getCell r "DT_COMPTC").asStr
        tp_aplic := (getCell r "TP_APLIC").asStr
        tp_ativo := (getCell r "TP_ATIVO").asStr
        vl_merc_pos_final := (getCell r "VL_MERC_POS_FINAL").asNum
        cd_ativo := (getCell r "EMISSOR").asStr })))

/-- Descending-by-market-value comparison on normalized rows. -/
def cdaValDesc (a b : CdaRow) : Prop :=
  b.vl_merc_pos_final ≤ a.vl_merc_pos_final

instance : DecidableRel cdaValDesc := fun a b =>
  inferInstanceAs (Decidable (b.vl_merc_pos_final ≤ a.vl_merc_pos_final))

/-- `open_cda_8`: the asset code comes from `DS_ATIVO`; afterwards only
the BDR and equity application categories are kept and the rows are
sorted by market value descending.  The source sorts with pandas
`sort_values` (numpy quicksort, tie order unspecified); insertion sort
realizes the descending order here and no theorem below depends on the
order of tied rows. -/
def open_cda_8 (t : RawTable) : Except String (List CdaRow) :=
  withCols t.cols (fun tpCol cnpjCol =>
    let filtered := t.rows.filter (fun r => (getCell r tpCol).asStr == "FI")
    let mapped := filtered.map (fun r =>
      { tp_fundo := (getCell r tpCol).asStr
        cnpj_fundo := (getCell r cnpjCol).asStr
        denom_social := (getCell r "DENOM_SOCIAL").asStr
        dt_comptc := (getCell r "DT_COMPTC").asStr
        tp_aplic := (getCell r "TP_APLIC").asStr
        tp_ativo := (getCell r "TP_ATIVO").asStr
        vl_merc_pos_final := (getCell r "VL_MERC_POS_FINAL").asNum
        cd_ativo := (getCell r "DS_ATIVO").asStr : CdaRow })
    let kept := mapped.filter (fun r =>
      r.tp_aplic == "Brazilian Depository Receipt - BDR" || r.tp_aplic == "Ações")
    Except.ok (List.insertionSort cdaValDesc kept))

/-- `pl_fundo`: resolve the same two columns, keep `'FI'` and
`'CLASSES - FIF'` rows, select the requested fund and return its
`VL_PATRIM_LIQ` column. -/
def pl_fundo (t : RawTable) (cnpj : String) : Except String (List ℚ) :=
  withCols t.cols (fun tpCol cnpjCol =>
    let filtered := t.rows.filter (fun r =>
      (getCell r tpCol).asStr == "FI" || (getCell r tpCol).asStr == "CLASSES - FIF")
    let fundoEspecPl := filtered.filter (fun r => (getCell r cnpjCol).asStr == cnpj)
    Except.ok (fundoEspecPl.map (fun r => (getCell r "VL_PATRIM_LIQ").asNum)))

/-! ## `fundo_cnpj` and the category slices

A normalized position row, as consumed by `fundo_cnpj` (the
concatenation of the reader outputs).  The report date is reduced to an
abstract ordinal; `fundo_cnpj` never inspects it. -/

structure PosRow where
  tp_fundo : String
  cnpj_fundo : String
  denom_social : String
  dt_comptc : Nat
  tp_aplic : String
  tp_ativo : String
  vl_merc_pos_final : ℚ
  cd_ativo : String
deriving DecidableEq

/-- The `CNPJ_FUNDO == cnpj` selection at the top of `fundo_cnpj`. -/
def fundoEspec (df : List PosRow) (cnpj : String) : List PosRow :=
  df.filter (fun r => r.cnpj_fundo == cnpj)

/-- Descending-by-market-value comparison on position rows. -/
def valDesc (a b : PosRow) : Prop :=
  b.vl_merc_pos_final ≤ a.vl_merc_pos_final

instance : DecidableRel valDesc := fun a b =>
  inferInstanceAs (Decidable (b.vl_merc_pos_final ≤ a.vl_merc_pos_final))

/-- One category slice before projection: the exact string match on
`TP_APLIC` followed by `sort_values(by='VL_MERC_POS_FINAL',
ascending=False)`.  The source sort is pandas default quicksort, whose
tie order is unspecified; insertion sort realizes the descending order
and every theorem below uses only order-insensitive consequences
(membership, sums, emptiness) of this choice. -/
def sliceCat (fe : List PosRow) (cat : String) : List PosRow :=
  List.insertionSort valDesc (fe.filter (fun r => r.tp_aplic == cat))

/-- A row of a category table returned by `fundo_cnpj`: the projection
to `DENOM_SOCIAL, CD_ATIVO, PORCENTAGEM, VL_MERC_POS_FINAL`.  The
percentage is `Option ℚ`, `none` standing for the non-finite float
(NaN/inf) that dividing by a zero slice sum produces. -/
structure CatRow where
  denom_social : String
  cd_ativo : String
  porcentagem : Option ℚ
  vl_merc_pos_final : ℚ
deriving DecidableEq

/-- A category table: its column names and its rows. -/
structure CatTable where
  cols : List String
  rows : List CatRow
deriving DecidableEq

/-- The block `fundo_cnpj` repeats for each category: filter on the
category string, sort descending by value, add the `PORCENTAGEM`
column as value over slice sum and project to the four output columns.
Assigning the mapped percentage list to an empty slice leaves the
column present and empty, exactly as the source's
`df['PORCENTAGEM'] = list(map(...))` does. -/
def categoria (fe : List PosRow) (cat : String) : CatTable :=
  let sorted := sliceCat fe cat
  let s := (sorted.map (fun r => r.vl_merc_pos_final)).sum
  { cols := ["DENOM_SOCIAL", "CD_ATIVO", "PORCENTAGEM", "VL_MERC_POS_FINAL"]
    rows := sorted.map (fun r =>
      { denom_social := r.denom_social
        cd_ativo := r.cd_ativo
        porcentagem := if s = 0 then none else some (r.vl_merc_pos_final / s)
        vl_merc_pos_final := r.vl_merc_pos_final }) }

/-- The six category strings of `fundo_cnpj`, in source order. -/
def cats : List String :=
  ["Ações",
   "Brazilian Depository Receipt - BDR",
   "Investimento no Exterior",
   "Cotas de Fundos",
   "Títulos Públicos",
   "Obrigações por ações e outros TVM recebidos em empréstimo"]

/-- `fundo_cnpj`: select the fund's rows and build the six category
tables. -/
def fundo_cnpj (df : List PosRow) (cnpj : String) :
    CatTable × CatTable × CatTable × CatTable × CatTable × CatTable :=
  let fe := fundoEspec df cnpj
  (categoria fe "Ações",
   categoria fe "Brazilian Depository Receipt - BDR",
   categoria fe "Investimento no Exterior",
   categoria fe "Cotas de Fundos",
   categoria fe "Títulos Públicos",
   categoria fe "Obrigações por ações e outros TVM recebidos em empréstimo")

/-- A row of the equities table of `fundo_cnpj_acoes`, which keeps the
report date (renamed `data` and made the index) in addition to the four
categorical columns. -/
structure AcoesRow where
  data : Nat
  denom_social : String
  cd_ativo : String
  porcentagem : Option ℚ
  vl_merc_pos_final : ℚ
deriving DecidableEq

/-- `fundo_cnpj_acoes`: the equities slice alone, with the same
percentage computation, projected to `data, DENOM_SOCIAL, CD_ATIVO,
PORCENTAGEM, VL_MERC_POS_FINAL`. -/
def fundo_cnpj_acoes (df : List PosRow) (cnpj : String) : List AcoesRow :=
  let sorted := sliceCat (fundoEspec df cnpj) "Ações"
  let s := (sorted.map (fun r => r.vl_merc_pos_final)).sum
  sorted.map (fun r =>
    { data := r.dt_comptc
      denom_social := r.denom_social
      cd_ativo := r.cd_ativo
      porcentagem := if s = 0 then none else some (r.vl_merc_pos_final / s)
      vl_merc_pos_final := r.vl_merc_pos_final })

/-- Summing a pandas float column whose entries may be NaN: the default
`skipna=True` ignores the NaN entries, so the sum of a column is always
a finite number — in particular the sum of an empty column is `0.0`,
never NaN. -/
def nanSum (l : List (Option ℚ)) : Option ℚ :=
  some ((l.filterMap id).sum)

/-! ## Cumulative returns and drawdown -/

/-- `pct_change().dropna()` of a price series: each entry divided by
its predecessor, minus one; the first entry of the series has no
predecessor and is dropped. -/
def pctChanges (l : List ℚ) : List ℚ :=
  List.zipWith (fun cur prev => cur / prev - 1) (l.drop 1) l

/-- Running product (`cumprod`) with accumulator. -/
def cumprodAux (acc : ℚ) : List ℚ → List ℚ
  | [] => []
  | x :: t => (acc * x) :: cumprodAux (acc * x) t

/-- pandas `cumprod` of a series. -/
def cumprod (l : List ℚ) : List ℚ := cumprodAux 1 l

/-- `series.iloc[0] = x`: overwrite the first entry. -/
def setFirst (l : List ℚ) (x : ℚ) : List ℚ :=
  match l with
  | [] => []
  | _ :: t => x :: t

/-- The asset leg of `ret_acumulado`: cumulative product of the daily
unit factors, with the first entry overwritten to 1. -/
def ret_acumulado_fundo (prices : List ℚ) : List ℚ :=
  setFirst (cumprod ((pctChanges prices).map (fun r => 1 + r))) 1

/-- The benchmark leg of `ret_acumulado`: the input is the benchmark's
`pct_change` column (already in percent); its unit-factor cumulative
product is rounded to 4 decimals and the first entry overwritten
to 1. -/
def ret_acumulado_benchmark (pcts : List ℚ) : List ℚ :=
  setFirst ((cumprod (pcts.map (fun p => 1 + p / 100))).map pyround4) 1

/-- Running maximum with accumulator. -/
def runningMaxAux (m : ℚ) : List ℚ → List ℚ
  | [] => []
  | x :: t => (max m x) :: runningMaxAux (max m x) t

/-- `expanding(min_periods=1).max()` of a series. -/
def runningMax (l : List ℚ) : List ℚ :=
  match l with
  | [] => []
  | x :: t => x :: runningMaxAux x t

/-- The drawdown series of the `drawdown` function: cumulative return
over its running peak, minus one, times 100, rounded to 2 decimals.
The price list stands for the downloaded `Close` column. -/
def drawdown_series (prices : List ℚ) : List ℚ :=
  let cum := cumprod ((pctChanges prices).map (fun r => 1 + r))
  List.zipWith (fun c p => pyround2 ((c / p - 1) * 100)) cum (runningMax cum)

/-- `drawdown` returns the minimum of the drawdown series (`none` for
an empty series, where pandas `min` gives NaN). -/
def drawdown (prices : List ℚ) : Option ℚ :=
  (drawdown_series prices).min?

/-! ## Concrete inputs used by witnesses and counterexamples -/

/-- Quota table of the spec's monthly-return example: month-end values
10.0, 10.5, 9.8 in consecutive months. -/
def exdf4 : List QuotaRow :=
  [⟨2022, 12, 30, "F", 10⟩, ⟨2023, 1, 31, "F", 21/2⟩, ⟨2023, 2, 28, "F", 49/5⟩]

/-- Quota table realizing monthly returns of 10%, −5% and 2% within one
calendar year: 100, 110, 104.5, 106.59. -/
def exdf5 : List QuotaRow :=
  [⟨2023, 1, 31, "F", 100⟩, ⟨2023, 2, 28, "F", 110⟩,
   ⟨2023, 3, 31, "F", 209/2⟩, ⟨2023, 4, 30, "F", 10659/100⟩]

/-- Position table of the spec's percentage example: one fund `"A"`
holding three equities valued 100, 200 and 300. -/
def exdf1 : List PosRow :=
  [⟨"FI", "A", "FUNDO A", 0, "Ações", "Ação ordinária", 100, "AAAA3"⟩,
   ⟨"FI", "A", "FUNDO A", 0, "Ações", "Ação ordinária", 200, "BBBB3"⟩,
   ⟨"FI", "A", "FUNDO A", 0, "Ações", "Ação ordinária", 300, "CCCC3"⟩]

/-- A raw table containing none of the recognized raw column names. -/
def exRawMissing : RawTable :=
  { cols := ["DENOM_SOCIAL", "DT_COMPTC"], rows := [] }

/-! ## Helper lemmas -/

/-- Membership through the running fold that implements `unique()`. -/
lemma mem_foldl_uniqueAux (l acc : List Nat) (a : Nat) :
    a ∈ l.foldl (fun acc y => if y ∈ acc then acc else acc ++ [y]) acc ↔
      a ∈ acc ∨ a ∈ l := by
  induction l generalizing acc with
  | nil => simp
  | cons y t ih =>
    simp only [List.foldl_cons]
    by_cases hy : y ∈ acc
    · rw [if_pos hy, ih]
      constructor
      · rintro (h | h)
        · exact Or.inl h
        · exact Or.inr (List.mem_cons_of_mem _ h)
      · rintro (h | h)
        · exact Or.inl h
        · rcases List.mem_cons.mp h with rfl | h
          · exact Or.inl hy
          · exact Or.inr h
    · rw [if_neg hy, ih]
      simp [List.mem_append, List.mem_cons]
      tauto

/-- `uniqueKeepFirst` preserves membership. -/
lemma mem_uniqueKeepFirst (a : Nat) (l : List Nat) :
    a ∈ uniqueKeepFirst l ↔ a ∈ l := by
  rw [uniqueKeepFirst, mem_foldl_uniqueAux]
  simp

/-- Looking up a key in an association list that tabulates a function
over a key list containing that key. -/
lemma lookup_map_key (ys : List Nat) (g : Nat → ℚ) (y : Nat) (hy : y ∈ ys) :
    List.lookup y (ys.map (fun z => (z, g z))) = some (g y) := by
  induction ys with
  | nil => cases hy
  | cons z t ih =>
    by_cases h : y = z
    · subst h
      simp [List.lookup]
    · rcases List.mem_cons.mp hy with rfl | hmem
      · exact absurd rfl h
      · simpa [List.lookup, beq_eq_false_iff_ne.mpr h] using ih hmem

/-- `cumprod` preserves length. -/
lemma length_cumprodAux (acc : ℚ) (l : List ℚ) :
    (cumprodAux acc l).length = l.length := by
  induction l generalizing acc with
  | nil => rfl
  | cons x t ih => simp [cumprodAux, ih]

/-- Overwriting the first entry of a nonempty series fixes its head. -/
lemma head?_setFirst (l : List ℚ) (x : ℚ) (h : l ≠ []) :
    (setFirst l x).head? = some x := by
  cases l with
  | nil => exact absurd rfl h
  | cons a t => rfl

/-- `pct_change().dropna()` has one entry fewer than its input. -/
lemma length_pctChanges (l : List ℚ) :
    (pctChanges l).length = l.length - 1 := by
  rw [pctChanges, List.length_zipWith, List.length_drop]
  omega

/-- Unfolding `pctChanges` on two leading entries. -/
lemma pctChanges_cons_cons (a b : ℚ) (t : List ℚ) :
    pctChanges (a :: b :: t) = (b / a - 1) :: pctChanges (b :: t) := by
  simp [pctChanges]

/-- On a positive, strictly increasing series every percentage change
gives a unit factor of at least one. -/
lemma factors_ge_one :
    ∀ (l : List ℚ), (∀ x ∈ l, 0 < x) → l.Chain' (· < ·) →
      ∀ r ∈ pctChanges l, 1 ≤ 1 + r := by
  intro l
  induction l with
  | nil => intro _ _ r hr; simp [pctChanges] at hr
  | cons a t ih =>
    cases t with
    | nil => intro _ _ r hr; simp [pctChanges] at hr
    | cons b t2 =>
      intro hpos hc r hr
      rw [pctChanges_cons_cons] at hr
      rcases List.mem_cons.mp hr with rfl | hr2
      · have ha : 0 < a := hpos a (by simp)
        have hab : a < b := (List.chain'_cons.mp hc).1
        have : 1 < b / a := (one_lt_div ha).mpr hab
        linarith
      · exact ih (fun x hx => hpos x (List.mem_cons_of_mem _ hx))
          (List.chain'_cons.mp hc).2 r hr2

/-- A cumulative product of factors that are at least one, started at a
positive accumulator, is positive and weakly increasing. -/
lemma cumprodAux_props :
    ∀ (l : List ℚ) (acc : ℚ), 0 < acc → (∀ f ∈ l, 1 ≤ f) →
      (∀ c ∈ cumprodAux acc l, 0 < c) ∧
      (acc :: cumprodAux acc l).Chain' (· ≤ ·) := by
  intro l
  induction l with
  | nil => intro acc hacc _; simp [cumprodAux]
  | cons f t ih =>
    intro acc hacc hf
    have hf1 : 1 ≤ f := hf f (by simp)
    have hpos : 0 < acc * f := mul_pos hacc (lt_of_lt_of_le one_pos hf1)
    have hstep : acc ≤ acc * f := le_mul_of_one_le_right (le_of_lt hacc) hf1
    have ihh := ih (acc * f) hpos (fun g hg => hf g (List.mem_cons_of_mem _ hg))
    constructor
    · intro c hc
      rw [cumprodAux] at hc
      rcases List.mem_cons.mp hc with rfl | hc2
      · exact hpos
      · exact ihh.1 c hc2
    · rw [cumprodAux, List.chain'_cons]
      exact ⟨hstep, ihh.2⟩

/-- The running maximum of a weakly increasing series, seeded with a
bound below its head, is the series itself. -/
lemma runningMaxAux_eq :
    ∀ (l : List ℚ) (m : ℚ), (m :: l).Chain' (· ≤ ·) → runningMaxAux m l = l := by
  intro l
  induction l with
  | nil => intro m _; rfl
  | cons x t ih =>
    intro m hc
    have hmx : m ≤ x := (List.chain'_cons.mp hc).1
    have hxt : (x :: t).Chain' (· ≤ ·) := (List.chain'_cons.mp hc).2
    rw [runningMaxAux, max_eq_right hmx, ih x hxt]

/-- The running maximum of a weakly increasing series is the series. -/
lemma runningMax_eq_self (l : List ℚ) (h : l.Chain' (· ≤ ·)) :
    runningMax l = l := by
  cases l with
  | nil => rfl
  | cons x t => rw [runningMax, runningMaxAux_eq t x h]

/-- Rounding zero gives zero. -/
lemma pyround2_zero : pyround2 0 = 0 := by decide

/-- Folding `min` over zeros from zero stays zero. -/
lemma foldl_min_zero :
    ∀ (t : List ℚ) (x : ℚ), x = 0 → (∀ y ∈ t, y = 0) → t.foldl min x = 0 := by
  intro t
  induction t with
  | nil => intro x hx _; simpa using hx
  | cons y t2 ih =>
    intro x hx hy
    rw [List.foldl_cons]
    exact ih _ (by rw [hx, hy y (by simp)]; simp)
      (fun z hz => hy z (List.mem_cons_of_mem _ hz))

/-- The minimum of a nonempty all-zero series is zero. -/
lemma min?_all_zero (l : List ℚ) (hne : l ≠ []) (h : ∀ x ∈ l, x = 0) :
    l.min? = some 0 := by
  cases l with
  | nil => exact absurd rfl hne
  | cons x t =>
    rw [List.min?_cons']
    exact congrArg some
      (foldl_min_zero t x (h x (by simp)) (fun y hy => h y (List.mem_cons_of_mem _ hy)))

/-- The rows a `categoria` table carries, unfolded. -/
lemma categoria_rows (fe : List PosRow) (cat : String) :
    (categoria fe cat).rows = (sliceCat fe cat).map (fun r =>
      { denom_social := r.denom_social
        cd_ativo := r.cd_ativo
        porcentagem :=
          if ((sliceCat fe cat).map (fun r => r.vl_merc_pos_final)).sum = 0 then none
          else some (r.vl_merc_pos_final /
            ((sliceCat fe cat).map (fun r => r.vl_merc_pos_final)).sum)
        vl_merc_pos_final := r.vl_merc_pos_final }) := rfl

/-- Projection does not change the market-value sum of a slice. -/
lemma rows_vl_sum (fe : List PosRow) (cat : String) :
    (((categoria fe cat).rows).map (fun r => r.vl_merc_pos_final)).sum =
      ((sliceCat fe cat).map (fun r => r.vl_merc_pos_final)).sum := by
  rw [categoria_rows, List.map_map]
  rfl

/-- Dividing each market value by a constant divides the sum. -/
lemma sum_map_vl_div (l : List PosRow) (s : ℚ) :
    (l.map (fun r => r.vl_merc_pos_final / s)).sum =
      (l.map (fun r => r.vl_merc_pos_final)).sum / s := by
  induction l with
  | nil => simp
  | cons a t ih => simp [ih, add_div]

/-- `nanSum` over a column of finite entries is the plain sum. -/
lemma nanSum_map_some (f : PosRow → ℚ) (l : List PosRow) :
    nanSum (l.map (fun r => some (f r))) = some ((l.map f).sum) := by
  rw [nanSum]
  congr 1
  induction l with
  | nil => rfl
  | cons a t ih => simpa [List.filterMap_cons] using ih

/-- When both recognized names of one of the two leading columns are
absent, the shared resolution prelude errors out for any reader body. -/
lemma withCols_isErr {β : Type} (cols : List String) (k : String → String → Except String β)
    (h : ("TP_FUNDO" ∉ cols ∧ "TP_FUNDO_CLASSE" ∉ cols) ∨
         ("CNPJ_FUNDO" ∉ cols ∧ "CNPJ_FUNDO_CLASSE" ∉ cols)) :
    isErr (withCols cols k) = true := by
  rcases h with ⟨h1, h2⟩ | ⟨h1, h2⟩
  · rw [withCols, resolveCol, if_neg h1, if_neg h2]
    rfl
  · rw [withCols]
    split
    · rfl
    · rw [resolveCol, if_neg h1, if_neg h2]
      rfl

/-- `open_cda_2` errors out when both recognized quota-name columns are
absent, whatever the two leading resolutions do. -/
lemma open_cda_2_nm_isErr (t : RawTable)
    (h1 : "NM_FUNDO_COTA" ∉ t.cols) (h2 : "NM_FUNDO_CLASSE_SUBCLASSE_COTA" ∉ t.cols) :
    isErr (open_cda_2 t) = true := by
  rw [open_cda_2, withCols]
  split
  · rfl
  · split
    · rfl
    · rw [resolveCol, if_neg h1, if_neg h2]
      rfl

/-! ## Claim theorems -/

/-- C1 (amended): in every category slice produced by the category
splitter whose market values have a nonzero sum, the `PORCENTAGEM`
entry of each row equals that row's market value divided by the sum of
market values within that same slice, and the `PORCENTAGEM` column sums
to exactly 1; for an empty slice the `PORCENTAGEM` column is empty and
its (skipna) sum is 0, not NaN.  The tables of `fundo_cnpj` are
`categoria (fundoEspec df cnpj) cat` for the six category strings, and
`fundo_cnpj_acoes` computes the same percentage column. -/
theorem C1_category_percentages (df : List PosRow) (cnpj cat : String) :
    ((((categoria (fundoEspec df cnpj) cat).rows).map (fun r => r.vl_merc_pos_final)).sum ≠ 0 →
      (∀ r ∈ (categoria (fundoEspec df cnpj) cat).rows,
        r.porcentagem = some (r.vl_merc_pos_final /
          (((categoria (fundoEspec df cnpj) cat).rows).map (fun r => r.vl_merc_pos_final)).sum)) ∧
      nanSum (((categoria (fundoEspec df cnpj) cat).rows).map (fun r => r.porcentagem)) = some 1) ∧
    ((categoria (fundoEspec df cnpj) cat).rows = [] →
      nanSum (((categoria (fundoEspec df cnpj) cat).rows).map (fun r => r.porcentagem)) = some 0) := by
  constructor
  · intro hs
    have hs' : ((sliceCat (fundoEspec df cnpj) cat).map (fun r => r.vl_merc_pos_final)).sum ≠ 0 := by
      rwa [rows_vl_sum] at hs
    constructor
    · intro r hr
      rw [categoria_rows] at hr
      rcases List.mem_map.mp hr with ⟨r0, _, rfl⟩
      rw [rows_vl_sum]
      simp only [if_neg hs']
    · have hmap : ((categoria (fundoEspec df cnpj) cat).rows).map (fun r => r.porcentagem) =
          (sliceCat (fundoEspec df cnpj) cat).map (fun r0 =>
            some (r0.vl_merc_pos_final /
              ((sliceCat (fundoEspec df cnpj) cat).map (fun r => r.vl_merc_pos_final)).sum)) := by
        rw [categoria_rows, List.map_map]
        refine List.map_congr_left (fun r0 _ => ?_)
        simp only [Function.comp_apply, if_neg hs']
      rw [hmap, nanSum_map_some, sum_map_vl_div, div_self hs']
  · intro h
    rw [h]
    rfl

/-- C1 witness: the spec's slice of values 100, 200, 300 for fund
`"A"`: each percentage is value over 600 and the column sums to 1. -/
theorem C1_category_percentages_witness :
    (∀ r ∈ (categoria (fundoEspec exdf1 "A") "Ações").rows,
      r.porcentagem = some (r.vl_merc_pos_final /
        (((categoria (fundoEspec exdf1 "A") "Ações").rows).map (fun r => r.vl_merc_pos_final)).sum)) ∧
    nanSum (((categoria (fundoEspec exdf1 "A") "Ações").rows).map (fun r => r.porcentagem)) = some 1 :=
  (C1_category_percentages exdf1 "A" "Ações").1 (by decide)

/-- C1 counterexample: for a fund identifier absent from the table the
equities slice is empty, and the sum of its `PORCENTAGEM` column is 0,
not NaN — refuting the claim's final clause. -/
theorem C1_empty_slice_sum_not_nan :
    (categoria (fundoEspec exdf1 "B") "Ações").rows = [] ∧
    nanSum (((categoria (fundoEspec exdf1 "B") "Ações").rows).map (fun r => r.porcentagem)) = some 0 ∧
    some (0 : ℚ) ≠ (none : Option ℚ) := by decide

/-- C2: every variant reader (`open_cda_1/2/4/4_v2/7/8`, `pl_fundo`)
fails with an explicit error, producing no table, whenever neither
known raw name of the fund-type column or of the fund-id column is
present; `open_cda_2` also fails when neither known raw name of the
quota-name column is present. -/
theorem C2_schema_mismatch (t : RawTable) (cnpj : String) :
    ((("TP_FUNDO" ∉ t.cols ∧ "TP_FUNDO_CLASSE" ∉ t.cols) ∨
      ("CNPJ_FUNDO" ∉ t.cols ∧ "CNPJ_FUNDO_CLASSE" ∉ t.cols)) →
      isErr (open_cda_1 t) = true ∧ isErr (open_cda_2 t) = true ∧
      isErr (open_cda_4 t) = true ∧ isErr (open_cda_4_v2 t) = true ∧
      isErr (open_cda_7 t) = true ∧ isErr (open_cda_8 t) = true ∧
      isErr (pl_fundo t cnpj) = true) ∧
    (("NM_FUNDO_COTA" ∉ t.cols ∧ "NM_FUNDO_CLASSE_SUBCLASSE_COTA" ∉ t.cols) →
      isErr (open_cda_2 t) = true) := by
  constructor
  · intro h
    exact ⟨withCols_isErr t.cols _ h, withCols_isErr t.cols _ h, withCols_isErr t.cols _ h,
      withCols_isErr t.cols _ h, withCols_isErr t.cols _ h, withCols_isErr t.cols _ h,
      withCols_isErr t.cols _ h⟩
  · intro h
    exact open_cda_2_nm_isErr t h.1 h.2

/-- C2 witness: a raw table carrying only `DENOM_SOCIAL` and
`DT_COMPTC` makes every reader error out. -/
theorem C2_schema_mismatch_witness :
    (isErr (open_cda_1 exRawMissing) = true ∧ isErr (open_cda_2 exRawMissing) = true ∧
     isErr (open_cda_4 exRawMissing) = true ∧ isErr (open_cda_4_v2 exRawMissing) = true ∧
     isErr (open_cda_7 exRawMissing) = true ∧ isErr (open_cda_8 exRawMissing) = true ∧
     isErr (pl_fundo exRawMissing "00") = true) ∧
    isErr (open_cda_2 exRawMissing) = true :=
  ⟨(C2_schema_mismatch exRawMissing "00").1 (Or.inl ⟨by decide, by decide⟩),
   (C2_schema_mismatch exRawMissing "00").2 ⟨by decide, by decide⟩⟩

/-- C3: for a fund identifier absent from the `CNPJ_FUNDO` column,
`fundo_cnpj` returns six tables, each with no rows and each still
carrying the `PORCENTAGEM` column; the embedding is total, so no
exception arises. -/
theorem C3_absent_cnpj_empty (df : List PosRow) (cnpj : String)
    (h : ∀ r ∈ df, r.cnpj_fundo ≠ cnpj) :
    ((fundo_cnpj df cnpj).1.rows = [] ∧ "PORCENTAGEM" ∈ (fundo_cnpj df cnpj).1.cols) ∧
    ((fundo_cnpj df cnpj).2.1.rows = [] ∧ "PORCENTAGEM" ∈ (fundo_cnpj df cnpj).2.1.cols) ∧
    ((fundo_cnpj df cnpj).2.2.1.rows = [] ∧ "PORCENTAGEM" ∈ (fundo_cnpj df cnpj).2.2.1.cols) ∧
    ((fundo_cnpj df cnpj).2.2.2.1.rows = [] ∧ "PORCENTAGEM" ∈ (fundo_cnpj df cnpj).2.2.2.1.cols) ∧
    ((fundo_cnpj df cnpj).2.2.2.2.1.rows = [] ∧
      "PORCENTAGEM" ∈ (fundo_cnpj df cnpj).2.2.2.2.1.cols) ∧
    ((fundo_cnpj df cnpj).2.2.2.2.2.rows = [] ∧
      "PORCENTAGEM" ∈ (fundo_cnpj df cnpj).2.2.2.2.2.cols) := by
  have hfe : fundoEspec df cnpj = [] := by
    rw [fundoEspec, List.filter_eq_nil_iff]
    intro a ha
    simpa using h a ha
  simp only [fundo_cnpj, hfe]
  decide

/-- C3 witness: the identifier `"Z"` is absent from the example table,
and all six returned tables are empty with the percentage column. -/
theorem C3_absent_cnpj_empty_witness :
    ((fundo_cnpj exdf1 "Z").1.rows = [] ∧ "PORCENTAGEM" ∈ (fundo_cnpj exdf1 "Z").1.cols) ∧
    ((fundo_cnpj exdf1 "Z").2.1.rows = [] ∧ "PORCENTAGEM" ∈ (fundo_cnpj exdf1 "Z").2.1.cols) ∧
    ((fundo_cnpj exdf1 "Z").2.2.1.rows = [] ∧ "PORCENTAGEM" ∈ (fundo_cnpj exdf1 "Z").2.2.1.cols) ∧
    ((fundo_cnpj exdf1 "Z").2.2.2.1.rows = [] ∧
      "PORCENTAGEM" ∈ (fundo_cnpj exdf1 "Z").2.2.2.1.cols) ∧
    ((fundo_cnpj exdf1 "Z").2.2.2.2.1.rows = [] ∧
      "PORCENTAGEM" ∈ (fundo_cnpj exdf1 "Z").2.2.2.2.1.cols) ∧
    ((fundo_cnpj exdf1 "Z").2.2.2.2.2.rows = [] ∧
      "PORCENTAGEM" ∈ (fundo_cnpj exdf1 "Z").2.2.2.2.2.cols) :=
  C3_absent_cnpj_empty exdf1 "Z" (by decide)

/-- C4: the monthly return that `rentabilidade_fundo` reports for a
calendar month equals the percentage change between the last observed
quota of the preceding calendar month and the last observed quota of
that month, times 100, rounded to 2 decimals; the first month's
undefined return is dropped, so the output is one shorter than the
month-end series. -/
theorem C4_monthly_returns (df : List QuotaRow) (cnpj : String) (i : Nat)
    (prev cur : QuotaRow)
    (h1 : (lastOfMonths (filtCnpj df cnpj))[i]? = some prev)
    (h2 : (lastOfMonths (filtCnpj df cnpj))[i+1]? = some cur)
    (_hm : (cur.year, cur.month) = nextMonth (prev.year, prev.month))
    (_hq : prev.vl_quota ≠ 0) :
    (mensalRets df cnpj)[i]? =
      some ((cur.year, cur.month),
        pyround2 ((cur.vl_quota / prev.vl_quota - 1) * 100)) ∧
    (mensalRets df cnpj).length = (lastOfMonths (filtCnpj df cnpj)).length - 1 := by
  constructor
  · show (List.zipWith _ _ _)[i]? = _
    rw [List.getElem?_zipWith, List.getElem?_drop]
    rw [Nat.add_comm 1 i] at *
    rw [h1, h2]
  · show (List.zipWith _ _ _).length = _
    rw [List.length_zipWith, List.length_drop]
    omega

/-- C4 witness: the spec's quota series 10.0, 10.5, 9.8 over
consecutive months: the first reported return is
`round((10.5/10 - 1)*100, 2) = 5.0` and the output has two entries for
three month-end values. -/
theorem C4_monthly_returns_witness :
    (mensalRets exdf4 "F")[0]? =
      some ((2023, 1), pyround2 (((21/2) / 10 - 1) * 100)) ∧
    (mensalRets exdf4 "F").length = (lastOfMonths (filtCnpj exdf4 "F")).length - 1 :=
  C4_monthly_returns exdf4 "F" 0 ⟨2022, 12, 30, "F", 10⟩ ⟨2023, 1, 31, "F", 21/2⟩
    (by decide) (by decide) (by decide) (by decide)

/-- C5 (amended): for every calendar year in the monthly-return table,
the annual return reported by `rentabilidade_fundo` is the product of
the unit factors `1 + r/100` over that year's monthly returns, minus 1,
times 100, rounded to 2 decimals; monthly returns of 10%, −5% and 2%
compound to 6.59%. -/
theorem C5_annual_compounding (df : List QuotaRow) (cnpj : String) (y : Nat)
    (hy : y ∈ (rentabilidade_fundo df cnpj).1.map (fun p => p.1.1)) :
    List.lookup y (rentabilidade_fundo df cnpj).2 =
      some (pyround2
        (((((rentabilidade_fundo df cnpj).1.filter (fun p => p.1.1 == y)).map
            (fun p => 1 + p.2 / 100)).prod - 1) * 100)) := by
  have hy' : y ∈ uniqueKeepFirst ((mensalRets df cnpj).map (fun p => p.1.1)) :=
    (mem_uniqueKeepFirst _ _).2 hy
  exact lookup_map_key _ _ _ hy'

/-- C5 witness: a quota series realizing monthly returns 10%, −5%, 2%
in the year 2023, where the reported annual return is the compounded
product formula. -/
theorem C5_annual_compounding_witness :
    List.lookup 2023 (rentabilidade_fundo exdf5 "F").2 =
      some (pyround2
        (((((rentabilidade_fundo exdf5 "F").1.filter (fun p => p.1.1 == 2023)).map
            (fun p => 1 + p.2 / 100)).prod - 1) * 100)) :=
  C5_annual_compounding exdf5 "F" 2023 (by decide)

/-- C5 counterexample: monthly returns of 10%, −5% and 2% compound to
6.59%, not to the 6.49% asserted by the claim's example. -/
theorem C5_compound_example_false :
    (rentabilidade_fundo exdf5 "F").1.map Prod.snd = [10, -5, 2] ∧
    List.lookup 2023 (rentabilidade_fundo exdf5 "F").2 = some (659/100) ∧
    (659 : ℚ)/100 ≠ 649/100 := by decide

/-- C7: both cumulative-return series built by `ret_acumulado` — the
asset's and the benchmark's — have their first entry overwritten to 1,
whatever the first return was. -/
theorem C7_starts_at_one (prices pcts : List ℚ)
    (hp : 2 ≤ prices.length) (hb : pcts ≠ []) :
    (ret_acumulado_fundo prices).head? = some 1 ∧
    (ret_acumulado_benchmark pcts).head? = some 1 := by
  constructor
  · apply head?_setFirst
    have hlen : (cumprod ((pctChanges prices).map (fun r => 1 + r))).length
        = prices.length - 1 := by
      rw [cumprod, length_cumprodAux, List.length_map, length_pctChanges]
    intro hnil
    rw [hnil] at hlen
    simp at hlen
    omega
  · apply head?_setFirst
    have hlen : ((cumprod (pcts.map (fun p => 1 + p / 100))).map pyround4).length
        = pcts.length := by
      rw [List.length_map, cumprod, length_cumprodAux, List.length_map]
    intro hnil
    rw [hnil] at hlen
    have : pcts.length = 0 := by simpa using hlen.symm
    exact hb (List.length_eq_zero.mp this)

/-- C7 witness: a two-point price series (whose day-one return is 100%)
and a one-point benchmark series (with a 5% return) both start at 1. -/
theorem C7_starts_at_one_witness :
    (ret_acumulado_fundo [10, 20]).head? = some 1 ∧
    (ret_acumulado_benchmark [5]).head? = some 1 :=
  C7_starts_at_one [10, 20] [5] (by decide) (by decide)

/-- C8: on a positive, strictly increasing price series the drawdown
series of the `drawdown` function is 0% at every point and the returned
minimum is 0. -/
theorem C8_drawdown_zero (prices : List ℚ) (hlen : 2 ≤ prices.length)
    (hpos : ∀ x ∈ prices, 0 < x) (hinc : prices.Chain' (· < ·)) :
    (∀ x ∈ drawdown_series prices, x = 0) ∧ drawdown prices = some 0 := by
  have hf1 : ∀ f ∈ (pctChanges prices).map (fun r => 1 + r), 1 ≤ f := by
    intro f hf
    rcases List.mem_map.mp hf with ⟨r, hr, rfl⟩
    exact factors_ge_one prices hpos hinc r hr
  have hcum := cumprodAux_props ((pctChanges prices).map (fun r => 1 + r)) 1 one_pos hf1
  have hchain : (cumprod ((pctChanges prices).map (fun r => 1 + r))).Chain' (· ≤ ·) := by
    have h2 := hcum.2
    rw [List.chain'_cons'] at h2
    exact h2.2
  have hdd : drawdown_series prices =
      (cumprod ((pctChanges prices).map (fun r => 1 + r))).map
        (fun c => pyround2 ((c / c - 1) * 100)) := by
    rw [drawdown_series]
    rw [runningMax_eq_self _ hchain]
    exact List.zipWith_same _ _
  have hzero : ∀ x ∈ drawdown_series prices, x = 0 := by
    intro x hx
    rw [hdd] at hx
    rcases List.mem_map.mp hx with ⟨c, hc, rfl⟩
    have hcpos : 0 < c := hcum.1 c hc
    rw [div_self (ne_of_gt hcpos)]
    simpa using pyround2_zero
  refine ⟨hzero, ?_⟩
  rw [drawdown]
  apply min?_all_zero _ _ hzero
  intro hnil
  have hlen0 : (drawdown_series prices).length = 0 := by rw [hnil]; rfl
  rw [hdd, List.length_map, cumprod, length_cumprodAux, List.length_map,
    length_pctChanges] at hlen0
  omega

/-- C8 witness: the strictly increasing price series 1, 2, 4 has an
all-zero drawdown series and a reported minimum drawdown of 0. -/
theorem C8_drawdown_zero_witness :
    (∀ x ∈ drawdown_series [1, 2, 4], x = 0) ∧ drawdown [1, 2, 4] = some 0 :=
  C8_drawdown_zero [1, 2, 4] (by decide) (by decide) (by norm_num [List.chain'_cons])

/-- C9: the category tables of `fundo_cnpj` partition a subset of the
selected fund's rows: every row of a category slice has the requested
`CNPJ_FUNDO`, belongs to no other category slice, and the six category
strings are pairwise distinct. -/
theorem C9_partition (df : List PosRow) (cnpj : String) (c₁ c₂ : String)
    (_h₁ : c₁ ∈ cats) (_h₂ : c₂ ∈ cats) (hne : c₁ ≠ c₂) (r : PosRow)
    (hr : r ∈ sliceCat (fundoEspec df cnpj) c₁) :
    (r.cnpj_fundo = cnpj ∧ r ∉ sliceCat (fundoEspec df cnpj) c₂) ∧
    cats.Pairwise (fun a b => a ≠ b) := by
  have hr' : r ∈ (fundoEspec df cnpj).filter (fun r => r.tp_aplic == c₁) :=
    (List.mem_insertionSort valDesc).mp hr
  have hfe : r ∈ fundoEspec df cnpj := List.mem_of_mem_filter hr'
  have hcat : r.tp_aplic = c₁ := by simpa using List.of_mem_filter hr'
  have hcnpj : r.cnpj_fundo = cnpj := by simpa using List.of_mem_filter hfe
  refine ⟨⟨hcnpj, ?_⟩, by decide⟩
  intro habs
  have hcat2 : r.tp_aplic = c₂ := by
    simpa using List.of_mem_filter ((List.mem_insertionSort valDesc).mp habs)
  exact hne (hcat.symm.trans hcat2)

/-- C9 witness: the 100-valued equity row of the example fund `"A"`
lies in the equities slice, carries `CNPJ_FUNDO = "A"`, and is not in
the fund-of-funds-quota slice. -/
theorem C9_partition_witness :
    ((⟨"FI", "A", "FUNDO A", 0, "Ações", "Ação ordinária", 100, "AAAA3"⟩ : PosRow).cnpj_fundo = "A" ∧
      (⟨"FI", "A", "FUNDO A", 0, "Ações", "Ação ordinária", 100, "AAAA3"⟩ : PosRow) ∉
        sliceCat (fundoEspec exdf1 "A") "Cotas de Fundos") ∧
    cats.Pairwise (fun a b => a ≠ b) :=
  C9_partition exdf1 "A" "Ações" "Cotas de Fundos" (by decide) (by decide) (by decide)
    ⟨"FI", "A", "FUNDO A", 0, "Ações", "Ação ordinária", 100, "AAAA3"⟩ (by decide)
